import Mathlib

/-!
Verification of the noclip.website rendering core: a shallow embedding of
the BSP world pipeline (`SourceEngine/Main.ts`), the skeletal model
pipeline (J3D `Command_Shape` / `BMDModelInstance`), and the Source entity
system (`Entities.ts`), with theorems settling the specified properties.

Machine floats are modelled as rationals; JS arrays as lists or total
functions; the external frustum test as an abstract boolean-valued
parameter.
-/

namespace NoclipSpec

/-! ### BSP tree data model (from `SourceEngine/Main.ts`)

An axis-aligned bounding box; its numeric content is irrelevant to the
claims (the frustum test is an abstract parameter), so it is carried as
opaque payload data. -/

structure AABBQ where
  minX : ℚ
  minY : ℚ
  minZ : ℚ
  maxX : ℚ
  maxY : ℚ
  maxZ : ℚ
deriving DecidableEq, Repr

structure BSPNodeData where
  bbox : AABBQ
  child0 : Int
  child1 : Int
deriving DecidableEq, Repr

structure BSPLeafData where
  bbox : AABBQ
  cluster : Nat
  surfaces : List Nat
deriving DecidableEq, Repr

structure BSPTreeData where
  nodelist : List BSPNodeData
  leaflist : List BSPLeafData
deriving DecidableEq, Repr

/-- The decoding applied at `Main.ts:444`: `const leafnum = -nodeid - 1;`. -/
def decodeLeafIndex (nodeid : Int) : Int := -nodeid - 1

/-- The inverse encoding (a leaf index `i ≥ 0` is stored in a child slot as
`-i - 1`, per the spec's data-model invariant). -/
def encodeLeafIndex (i : Int) : Int := -i - 1

/-- Trace events recorded by the shallow embedding of
`BSPModelRenderer.gatherSurfaces`, in the order the corresponding
operations execute in the source. -/
inductive GatherEvent where
  | nodeFrustum (nodeid : Int) (pass : Bool)
  | leafPVS (leafnum : Nat) (pass : Bool)
  | leafFrustum (leafnum : Nat) (pass : Bool)
  | addLeaf (leafnum : Nat)
  | addSurface (surf : Nat)
deriving DecidableEq, Repr

/-- Shallow embedding of `BSPModelRenderer.gatherSurfaces`
(`Main.ts:424-461`).  `frustum b` stands for
`view.frustum.contains(scratchAABB.transform(b, this.modelMatrix))`;
`pvs c` stands for `pvs.getBit(c)`.  The recursion over child indices is
bounded by `fuel` (the source tree is finite and acyclic).  Returns the
accumulated surface list, the accumulated leaf list, and the event trace;
`gatherSurfs` / `gatherLeaves` model the two nullable output-set
arguments.  An out-of-range child index — impossible for well-formed
level data, and a crash in the source — yields the empty result. -/
def gatherSurfaces (tree : BSPTreeData) (frustum : AABBQ → Bool)
    (pvs : Nat → Bool) (gatherSurfs gatherLeaves : Bool) :
    Nat → Int → List Nat × List Nat × List GatherEvent
  | 0, _ => ([], [], [])
  | fuel + 1, nodeid =>
    if 0 ≤ nodeid then
      match tree.nodelist.get? nodeid.toNat with
      | none => ([], [], [])
      | some node =>
        if frustum node.bbox then
          let r0 := gatherSurfaces tree frustum pvs gatherSurfs gatherLeaves fuel node.child0
          let r1 := gatherSurfaces tree frustum pvs gatherSurfs gatherLeaves fuel node.child1
          (r0.1 ++ r1.1, r0.2.1 ++ r1.2.1,
            GatherEvent.nodeFrustum nodeid true :: (r0.2.2 ++ r1.2.2))
        else
          ([], [], [GatherEvent.nodeFrustum nodeid false])
    else
      let leafnum := (decodeLeafIndex nodeid).toNat
      match tree.leaflist.get? leafnum with
      | none => ([], [], [])
      | some leaf =>
        if pvs leaf.cluster then
          if frustum leaf.bbox then
            ((if gatherSurfs then leaf.surfaces else []),
             (if gatherLeaves then [leafnum] else []),
             GatherEvent.leafPVS leafnum true ::
               GatherEvent.leafFrustum leafnum true ::
               ((if gatherLeaves then [GatherEvent.addLeaf leafnum] else []) ++
                (if gatherSurfs then leaf.surfaces.map GatherEvent.addSurface else [])))
          else
            ([], [], [GatherEvent.leafPVS leafnum true,
                      GatherEvent.leafFrustum leafnum false])
        else
          ([], [], [GatherEvent.leafPVS leafnum false])

/-! ### PVS bitmap and `calcPVS` (from `SourceEngine/Main.ts:895-910`, caller at 959-969) -/

structure Vec3 where
  x : ℚ
  y : ℚ
  z : ℚ
deriving DecidableEq, Repr

/-- Modelled from the spec: `BitMap` (`src/BitMap.ts`, not under `src/`) is
"a fixed-size bitset keyed by spatial cluster id"; `fill(b)` sets every
bit to `b`.  A bitmap is a list of bits. -/
def bitmapFill (b : Bool) (bm : List Bool) : List Bool :=
  bm.map (fun _ => b)

/-- Modelled from the spec: `BitMap.or(other)` ORs `other`'s bits into the
bitmap, keeping the bitmap's own size. -/
def bitmapOr (dst src : List Bool) : List Bool :=
  dst.mapIdx (fun i b => b || src.getD i false)

/-- Modelled from the spec: `BitMap.getBit(i)` reads one bit. -/
def bitmapGetBit (bm : List Bool) (i : Nat) : Bool :=
  bm.getD i false

/-- The slice of a parsed leaf that `calcPVS` reads: its cluster id. -/
structure PVSLeaf where
  cluster : Nat
deriving DecidableEq, Repr

/-- The slice of a parsed `BSPFile` that `calcPVS` reads.
`findLeafForPoint` (in `BSPFile.ts`, outside `src/`) is carried as an
abstract point-to-leaf lookup; `visibilityPvs c` is
`bsp.visibility.pvs[c]`. -/
structure BSPFileModel where
  findLeafForPoint : Vec3 → Option PVSLeaf
  visibilityPvs : Nat → List Bool

/-- Shallow embedding of `SourceRenderer.calcPVS` (`Main.ts:895-910`).
Returns the boolean result together with the (possibly mutated) bitmap. -/
def calcPVS (pvsEnabled : Bool) (bsp : BSPFileModel) (pvs : List Bool)
    (cameraPos : Vec3) : Bool × List Bool :=
  if !pvsEnabled then (false, pvs)
  else
    match bsp.findLeafForPoint cameraPos with
    | some leaf =>
      if leaf.cluster ≠ 0xFFFF then
        (true, bitmapOr (bitmapFill false pvs) (bsp.visibilityPvs leaf.cluster))
      else (false, pvs)
    | none => (false, pvs)

/-- Shallow embedding of the main-view call site
(`Main.ts:963-966`): `if (!this.calcPVS(...)) this.pvsScratch.fill(true);`.
Returns the bitmap used for the subsequent `prepareToRenderView`. -/
def mainViewPVS (pvsEnabled : Bool) (bsp : BSPFileModel) (pvs : List Bool)
    (cameraPos : Vec3) : List Bool :=
  let r := calcPVS pvsEnabled bsp pvs cameraPos
  if r.1 then r.2 else bitmapFill true r.2

/-! ### Entity output queue (from `Entities.ts`) -/

structure EntityOutputAction where
  targetName : String
  inputName : String
  parameterOverride : String
  delay : ℚ
  timesToFire : Int
deriving DecidableEq, Repr

structure QueuedOutputEvent where
  triggerTime : ℚ
  action : EntityOutputAction
  value : String
deriving DecidableEq, Repr

/-- The slice of `BaseEntity` the dispatch loop reads: its (nullable)
target name. -/
structure EntityRef where
  targetName : Option String
deriving DecidableEq, Repr

structure EntitySystemState where
  entities : List EntityRef
  currentTime : ℚ
  outputQueue : List QueuedOutputEvent
deriving DecidableEq, Repr

/-- Shallow embedding of `EntitySystem.entityMatchesTargetName`:
exact match only. -/
def entityMatchesTargetName (entity : EntityRef) (targetName : String) : Bool :=
  entity.targetName = some targetName

/-- Shallow embedding of `EntitySystem.queueEntityOutputAction`
(`Entities.ts:891-897`). -/
def queueEntityOutputAction (s : EntitySystemState)
    (action : EntityOutputAction) (value : String) : EntitySystemState :=
  let v := if action.parameterOverride ≠ "" then action.parameterOverride else value
  { s with outputQueue :=
      s.outputQueue ++ [{ triggerTime := s.currentTime + action.delay,
                          action := action, value := v }] }

/-- Shallow embedding of `EntityOutput.fire`: queues one event per
registered action. -/
def entityOutputFire (s : EntitySystemState)
    (actions : List EntityOutputAction) (value : String) : EntitySystemState :=
  actions.foldl (fun st a => queueEntityOutputAction st a value) s

/-- One dispatch performed by `fireEntityOutputAction`: a matching entity
receives `fireInput inputName value`. -/
structure DispatchRec where
  entity : EntityRef
  inputName : String
  value : String
deriving DecidableEq, Repr

/-- Shallow embedding of `EntitySystem.fireEntityOutputAction`
(`Entities.ts:906-918`): returns whether the event fired, and the
dispatches performed (one per entity whose target name matches). -/
def fireEntityOutputAction (s : EntitySystemState) (event : QueuedOutputEvent) :
    Bool × List DispatchRec :=
  if s.currentTime < event.triggerTime then (false, [])
  else
    (true, s.entities.filterMap (fun e =>
      if entityMatchesTargetName e event.action.targetName then
        some { entity := e, inputName := event.action.inputName,
               value := event.value }
      else none))

/-- Shallow embedding of `EntitySystem.processOutputQueue`
(`Entities.ts:920-924`): the forward splice loop removes fired events and
keeps the rest in order.  Returns the remaining queue and the dispatch
log. -/
def processOutputQueue (s : EntitySystemState) :
    List QueuedOutputEvent → List QueuedOutputEvent × List DispatchRec
  | [] => ([], [])
  | e :: rest =>
    let r := fireEntityOutputAction s e
    let rr := processOutputQueue s rest
    if r.1 then (rr.1, r.2 ++ rr.2) else (e :: rr.1, r.2 ++ rr.2)

/-- Shallow embedding of `EntitySystem.movement` restricted to the queue
machinery (`Entities.ts:926-934`): drain the output queue, then advance
`currentTime` by the frame delta.  (Per-entity movement is outside this
claim's scope and dispatch side effects are recorded as a log.) -/
def systemMovement (s : EntitySystemState) (dt : ℚ) :
    EntitySystemState × List DispatchRec :=
  let r := processOutputQueue s s.outputQueue
  ({ s with outputQueue := r.1, currentTime := s.currentTime + dt }, r.2)

/-- The sequence of states at the start of each tick when the system runs
through the given frame deltas. -/
def runTicks (s : EntitySystemState) : List ℚ → List EntitySystemState
  | [] => []
  | dt :: rest => s :: runTicks (systemMovement s dt).1 rest

/-! ### `math_counter` (from `Entities.ts:527-594`) -/

inductive CounterEvt where
  | outValue
  | onHitMin
  | onHitMax
deriving DecidableEq, Repr

structure MathCounterState where
  min : ℚ
  max : ℚ
  value : ℚ
  minEdgeState : Bool
  maxEdgeState : Bool
deriving DecidableEq, Repr

/-- The `if (this.max !== 0)` block of `math_counter.updateValue`
(`Entities.ts:568-578`): upper clamp with edge-triggered `onHitMax`. -/
def mathCounterClampMax (s : MathCounterState) : MathCounterState × List CounterEvt :=
  if s.max ≠ 0 then
    if s.value ≥ s.max then
      if ¬ s.maxEdgeState then
        ({ s with value := s.max, maxEdgeState := true }, [CounterEvt.onHitMax])
      else ({ s with value := s.max }, [])
    else ({ s with maxEdgeState := false }, [])
  else (s, [])

/-- The `if (this.min !== 0)` block of `math_counter.updateValue`
(`Entities.ts:580-590`): lower clamp with edge-triggered `onHitMin`. -/
def mathCounterClampMin (s : MathCounterState) : MathCounterState × List CounterEvt :=
  if s.min ≠ 0 then
    if s.value ≤ s.min then
      if ¬ s.minEdgeState then
        ({ s with value := s.min, minEdgeState := true }, [CounterEvt.onHitMin])
      else ({ s with value := s.min }, [])
    else ({ s with minEdgeState := false }, [])
  else (s, [])

/-- Shallow embedding of `math_counter.updateValue` (`Entities.ts:565-593`):
store the value, run the max block, then the min block, then fire
`outValue`.  Output firings are recorded as events, in program order. -/
def mathCounterUpdateValue (s : MathCounterState) (v : ℚ) :
    MathCounterState × List CounterEvt :=
  let p2 := mathCounterClampMax { s with value := v }
  let p3 := mathCounterClampMin p2.1
  (p3.1, p2.2 ++ p3.2 ++ [CounterEvt.outValue])

/-- Shallow embedding of `math_counter.input_add`: `updateValue(value + num)`
(the string-to-number parse of the input value happens upstream). -/
def mathCounterInputAdd (s : MathCounterState) (num : ℚ) :
    MathCounterState × List CounterEvt :=
  mathCounterUpdateValue s (s.value + num)

/-- Shallow embedding of `math_counter.input_subtract`:
`updateValue(value - num)`. -/
def mathCounterInputSubtract (s : MathCounterState) (num : ℚ) :
    MathCounterState × List CounterEvt :=
  mathCounterUpdateValue s (s.value - num)

/-! ### `func_door` and `BaseToggle` movement (from `Entities.ts:298-507`) -/

def vadd (a b : Vec3) : Vec3 := ⟨a.x + b.x, a.y + b.y, a.z + b.z⟩

def vsub (a b : Vec3) : Vec3 := ⟨a.x - b.x, a.y - b.y, a.z - b.z⟩

def vscale (k : ℚ) (v : Vec3) : Vec3 := ⟨k * v.x, k * v.y, k * v.z⟩

def vzero : Vec3 := ⟨0, 0, 0⟩

def sqLen (v : Vec3) : ℚ := v.x * v.x + v.y * v.y + v.z * v.z

/-- Rational square root used to model `Math.sqrt`: exact whenever the
argument is the square of a rational (which holds for every concrete
input used in the theorems below). -/
def ratSqrt (q : ℚ) : ℚ :=
  (Nat.sqrt q.num.toNat : ℚ) / (Nat.sqrt q.den : ℚ)

/-- Models `vec3.length`; exact on vectors whose Euclidean length is
rational. -/
def vecLen (v : Vec3) : ℚ := ratSqrt (sqLen v)

inductive ToggleState where
  | Top
  | Bottom
  | GoingToTop
  | GoingToBottom
deriving DecidableEq, Repr

inductive DoorEvt where
  | onOpen
  | onClose
  | onFullyOpen
  | onFullyClosed
deriving DecidableEq, Repr

structure FuncDoorState where
  localOrigin : Vec3
  positionOpened : Vec3
  positionClosed : Vec3
  speed : ℚ
  locked : Bool
  toggleState : ToggleState
  timeLeftInSeconds : ℚ
  positionTarget : Vec3
  velocityPerSecond : Vec3
deriving DecidableEq, Repr

/-- Shallow embedding of `func_door.moveDone` (`Entities.ts:474-479`):
`hitTop` / `hitBottom` fire the corresponding output; the toggle state is
not modified. -/
def doorMoveDone (s : FuncDoorState) : FuncDoorState × List DoorEvt :=
  match s.toggleState with
  | ToggleState.GoingToTop => (s, [DoorEvt.onFullyOpen])
  | ToggleState.GoingToBottom => (s, [DoorEvt.onFullyClosed])
  | _ => (s, [])

/-- Shallow embedding of `BaseToggle.moveToTargetPos`
(`Entities.ts:324-332`) specialised to `func_door`'s `moveDone`. -/
def doorMoveToTargetPos (s : FuncDoorState) (positionTarget : Vec3)
    (speedInSeconds : ℚ) : FuncDoorState × List DoorEvt :=
  let s1 := { s with positionTarget := positionTarget,
                     velocityPerSecond := vsub positionTarget s.localOrigin }
  let t := vecLen s1.velocityPerSecond / speedInSeconds
  let s2 := { s1 with timeLeftInSeconds := t }
  if t ≤ 0 then doorMoveDone s2
  else ({ s2 with velocityPerSecond := vscale (1 / t) s2.velocityPerSecond }, [])

/-- Shallow embedding of `func_door.goToTop` (`Entities.ts:454-458`):
set state to `GoingToTop`, start the move, then fire `onOpen`. -/
def doorGoToTop (s : FuncDoorState) : FuncDoorState × List DoorEvt :=
  let s1 := { s with toggleState := ToggleState.GoingToTop }
  let r := doorMoveToTargetPos s1 s1.positionOpened s1.speed
  (r.1, r.2 ++ [DoorEvt.onOpen])

/-- Shallow embedding of `func_door.input_open` (`Entities.ts:488-496`). -/
def doorInputOpen (s : FuncDoorState) : FuncDoorState × List DoorEvt :=
  if s.toggleState = ToggleState.Top ∨ s.toggleState = ToggleState.GoingToTop then
    (s, [])
  else if s.locked then (s, [])
  else doorGoToTop s

/-- Shallow embedding of `BaseToggle.movement` (`Entities.ts:334-352`)
specialised to `func_door` (the inherited `BaseEntity.movement` only
refreshes render state). -/
def doorMovement (s : FuncDoorState) (dt : ℚ) : FuncDoorState × List DoorEvt :=
  if 0 < s.timeLeftInSeconds then
    let s1 := { s with
      localOrigin := vadd s.localOrigin (vscale dt s.velocityPerSecond),
      timeLeftInSeconds := s.timeLeftInSeconds - dt }
    if s1.timeLeftInSeconds ≤ 0 then
      doorMoveDone { s1 with localOrigin := s1.positionTarget,
                             velocityPerSecond := vzero,
                             timeLeftInSeconds := 0 }
    else (s1, [])
  else (s, [])

/-! ### Skinning matrix resolution (from J3D `render.ts`:
`BMDModelInstance.updateMatrixArray`, part_000:698-727) -/

/-- Machine 4×4 matrices (gl-matrix `mat4`), modelled over ℚ. -/
abbrev Mat := Matrix (Fin 4) (Fin 4) ℚ

/-- `IntersectionState` from `Camera.ts` (frustum classification). -/
inductive IntersectionState where
  | FULLY_INSIDE
  | PARTIAL_INTERSECT
  | FULLY_OUTSIDE
deriving DecidableEq, Repr

inductive DRW1JointKind where
  | NormalJoint
  | WeightedJoint
deriving DecidableEq, Repr

structure DRW1Joint where
  kind : DRW1JointKind
  jointIndex : Nat
  envelopeIndex : Nat
deriving DecidableEq, Repr

structure WeightedBone where
  weight : ℚ
  index : Nat
deriving DecidableEq, Repr

structure Envelope where
  weightedBones : List WeightedBone
deriving DecidableEq, Repr

/-- Shallow embedding of the per-weight-entry body of
`BMDModelInstance.updateMatrixArray` (part_000:708-726): a normal joint
copies the joint's world matrix and visibility; a weighted joint starts
from `dst.fill(0)` and accumulates
`dst += weight * (jointMatrices[index] * inverseBinds[index])`, and is
marked `FULLY_INSIDE` unconditionally. -/
def resolveDrw1Entry (jointMatrices : Nat → Mat)
    (jointVisibility : Nat → IntersectionState)
    (envelopes : Nat → Envelope) (inverseBinds : Nat → Mat)
    (joint : DRW1Joint) : Mat × IntersectionState :=
  match joint.kind with
  | DRW1JointKind.NormalJoint =>
    (jointMatrices joint.jointIndex, jointVisibility joint.jointIndex)
  | DRW1JointKind.WeightedJoint =>
    let env := envelopes joint.envelopeIndex
    (env.weightedBones.foldl
       (fun dst wb => dst + wb.weight • (jointMatrices wb.index * inverseBinds wb.index))
       0,
     IntersectionState.FULLY_INSIDE)

/-! ### `Command_Shape.draw` (part_000:72-116) -/

/-- The persistent slot state the draw loop reads and writes: the
module-level `posMtxVisibility` array (10 entries, initially
`FULLY_INSIDE`) and the per-shape `packetParams.u_PosMtx` uniform slots.
Both survive across packets and across draw calls. -/
structure SlotState where
  posMtxVisibility : Nat → IntersectionState
  u_PosMtx : Nat → Mat

/-- The matrix-table sentinel: `0xFFFF` means "leave existing matrix". -/
def matrixSentinel : Nat := 0xFFFF

/-- Shallow embedding of the matrix-table update loop
(part_000:81-92), walking the table from slot `i`:  sentinel entries are
skipped; other entries overwrite the slot's visibility and write
`modelView * matrixArray[entry]` into the uniform slot, dirtying the
upload flag. -/
def updateMatrixTable (modelView : Mat) (matrixArray : Nat → Mat)
    (matrixVisibility : Nat → IntersectionState) :
    List Nat → Nat → SlotState → Bool → SlotState × Bool
  | [], _, st, needsUpload => (st, needsUpload)
  | e :: rest, i, st, needsUpload =>
    if e = matrixSentinel then
      updateMatrixTable modelView matrixArray matrixVisibility rest (i + 1) st needsUpload
    else
      updateMatrixTable modelView matrixArray matrixVisibility rest (i + 1)
        { posMtxVisibility := Function.update st.posMtxVisibility i (matrixVisibility e),
          u_PosMtx := Function.update st.u_PosMtx i (modelView * matrixArray e) }
        true

/-- The cull test (part_000:94-101): true when every one of the 10
`posMtxVisibility` slots is `FULLY_OUTSIDE`. -/
def allSlotsOutside (st : SlotState) : Bool :=
  (List.range 10).all
    (fun i => st.posMtxVisibility i = IntersectionState.FULLY_OUTSIDE)

/-- Shallow embedding of the packet loop of `Command_Shape.draw`
(part_000:77-113).  Each packet is its matrix table; the result is the
final slot state, the final upload flag, and the indices of the packets
actually drawn.  A culled packet executes `return`, ending the whole
loop. -/
def drawPackets (modelView : Mat) (matrixArray : Nat → Mat)
    (matrixVisibility : Nat → IntersectionState) :
    List (List Nat) → Nat → SlotState → Bool → SlotState × Bool × List Nat
  | [], _, st, needsUpload => (st, needsUpload, [])
  | table :: rest, p, st, needsUpload =>
    let r := updateMatrixTable modelView matrixArray matrixVisibility table 0 st needsUpload
    if allSlotsOutside r.1 then
      (r.1, r.2, [])
    else
      let r2 := drawPackets modelView matrixArray matrixVisibility rest (p + 1) r.1 false
      (r2.1, r2.2.1, p :: r2.2.2)

/-- One `Command_Shape.draw` call: the loop starts with a fresh
`needsUpload = false`. -/
def commandShapeDraw (modelView : Mat) (matrixArray : Nat → Mat)
    (matrixVisibility : Nat → IntersectionState)
    (packets : List (List Nat)) (st : SlotState) : SlotState × List Nat :=
  let r := drawPackets modelView matrixArray matrixVisibility packets 0 st false
  (r.1, r.2.2)

/-- Modelled from the spec's words, for comparison with the source's
`drawPackets`: "a packet is skipped entirely if every slot's visibility is
Outside ... skipping one culled packet affects only that packet, not the
drawing of the shape's other packets" — i.e. a culled packet `continue`s
instead of returning. -/
def drawPacketsIndependent (modelView : Mat) (matrixArray : Nat → Mat)
    (matrixVisibility : Nat → IntersectionState) :
    List (List Nat) → Nat → SlotState → Bool → SlotState × Bool × List Nat
  | [], _, st, needsUpload => (st, needsUpload, [])
  | table :: rest, p, st, needsUpload =>
    let r := updateMatrixTable modelView matrixArray matrixVisibility table 0 st needsUpload
    if allSlotsOutside r.1 then
      drawPacketsIndependent modelView matrixArray matrixVisibility rest (p + 1) r.1 r.2
    else
      let r2 := drawPacketsIndependent modelView matrixArray matrixVisibility rest (p + 1) r.1 false
      (r2.1, r2.2.1, p :: r2.2.2)

/-! ### Trace-order measurements used by the ordering claims -/

/-- Leaves whose passing PVS test occurs in the trace, accumulated onto
`seen`. -/
def pvsCollect : List GatherEvent → List Nat → List Nat
  | [], seen => seen
  | GatherEvent.leafPVS ℓ true :: rest, seen => pvsCollect rest (ℓ :: seen)
  | _ :: rest, seen => pvsCollect rest seen

/-- Scans a trace checking that every leaf frustum test is preceded by
that leaf's passing PVS test (`seen` holds the leaves whose PVS test
already passed). -/
def pvsSeenScan : List GatherEvent → List Nat → Bool
  | [], _ => true
  | GatherEvent.leafPVS ℓ true :: rest, seen => pvsSeenScan rest (ℓ :: seen)
  | GatherEvent.leafFrustum ℓ _ :: rest, seen => seen.contains ℓ && pvsSeenScan rest seen
  | _ :: rest, seen => pvsSeenScan rest seen

/-- Scans a trace checking the order the spec asserts for leaves: every
leaf PVS test is preceded by that leaf's frustum test (`seen` holds the
leaves already frustum-tested). -/
def frustumSeenScan : List GatherEvent → List Nat → Bool
  | [], _ => true
  | GatherEvent.leafFrustum ℓ _ :: rest, seen => frustumSeenScan rest (ℓ :: seen)
  | GatherEvent.leafPVS ℓ _ :: rest, seen => seen.contains ℓ && frustumSeenScan rest seen
  | _ :: rest, seen => frustumSeenScan rest seen

/-- Number of run ticks at whose start the event is still queued and its
trigger time has arrived — exactly the ticks in which
`processOutputQueue` fires it. -/
def firedTickCount (e : QueuedOutputEvent) (states : List EntitySystemState) : Nat :=
  (states.filter (fun st =>
    decide (e ∈ st.outputQueue) && decide (e.triggerTime ≤ st.currentTime))).length

/-! ## Theorems -/

/-- C1: BSP leaf index encoding round-trips: for every non-negative index
`i`, the encoding `-i-1` is negative and decoding it with `-(encoded)-1`
yields `i` again; and `gatherSurfaces` treats `nodeid ≥ 0` as an internal
node (its first recorded action is the node's frustum test) and
`nodeid < 0` as the leaf at index `-nodeid-1` (its first recorded action
is that leaf's PVS test). -/
theorem claim1_leaf_encoding_roundtrip
    (i : Int) (tree : BSPTreeData) (frustum : AABBQ → Bool) (pvs : Nat → Bool)
    (gs gl : Bool) (fuel : Nat) (nodeid : Int) :
    (0 ≤ i → encodeLeafIndex i < 0 ∧ decodeLeafIndex (encodeLeafIndex i) = i) ∧
    (0 ≤ nodeid → ∀ node, tree.nodelist.get? nodeid.toNat = some node →
      ∃ b, ((gatherSurfaces tree frustum pvs gs gl (fuel + 1) nodeid).2.2).head? =
        some (GatherEvent.nodeFrustum nodeid b)) ∧
    (nodeid < 0 → ∀ leaf, tree.leaflist.get? (decodeLeafIndex nodeid).toNat = some leaf →
      ∃ b, ((gatherSurfaces tree frustum pvs gs gl (fuel + 1) nodeid).2.2).head? =
        some (GatherEvent.leafPVS (decodeLeafIndex nodeid).toNat b)) := by
  refine ⟨fun hi => ⟨by simp only [encodeLeafIndex]; omega,
                    by simp only [decodeLeafIndex, encodeLeafIndex]; ring⟩, ?_, ?_⟩
  · intro h node hget
    simp only [gatherSurfaces, if_pos h, hget]
    by_cases hf : frustum node.bbox
    · simp only [hf, if_pos]
      exact ⟨true, rfl⟩
    · simp only [hf, if_neg, Bool.false_eq_true]
      exact ⟨false, rfl⟩
  · intro h leaf hget
    have hn : ¬ (0 ≤ nodeid) := by omega
    simp only [gatherSurfaces, if_neg hn, hget]
    by_cases hp : pvs leaf.cluster
    · by_cases hf : frustum leaf.bbox
      · simp only [hp, hf, if_pos]
        exact ⟨true, rfl⟩
      · simp only [hp, if_pos, hf, Bool.false_eq_true, if_neg]
        exact ⟨true, rfl⟩
    · simp only [hp, Bool.false_eq_true, if_neg]
      exact ⟨false, rfl⟩

/-- C1 witness: the round-trip at `i = 5` and the discriminant on a
concrete one-node, one-leaf tree at `nodeid = 0` and `nodeid = -1`. -/
theorem claim1_witness :
    (encodeLeafIndex 5 < 0 ∧ decodeLeafIndex (encodeLeafIndex 5) = 5) ∧
    (∃ b, ((gatherSurfaces
        ⟨[⟨⟨0,0,0,1,1,1⟩, -1, -1⟩], [⟨⟨0,0,0,1,1,1⟩, 3, [7]⟩]⟩
        (fun _ => true) (fun _ => true) true true 2 0).2.2).head? =
        some (GatherEvent.nodeFrustum 0 b)) ∧
    (∃ b, ((gatherSurfaces
        ⟨[⟨⟨0,0,0,1,1,1⟩, -1, -1⟩], [⟨⟨0,0,0,1,1,1⟩, 3, [7]⟩]⟩
        (fun _ => true) (fun _ => true) true true 2 (-1)).2.2).head? =
        some (GatherEvent.leafPVS (decodeLeafIndex (-1)).toNat b)) := by
  refine ⟨(claim1_leaf_encoding_roundtrip 5 ⟨[], []⟩ (fun _ => true) (fun _ => true)
      true true 0 0).1 (by omega), ?_, ?_⟩
  · exact (claim1_leaf_encoding_roundtrip 5
      ⟨[⟨⟨0,0,0,1,1,1⟩, -1, -1⟩], [⟨⟨0,0,0,1,1,1⟩, 3, [7]⟩]⟩
      (fun _ => true) (fun _ => true) true true 1 0).2.1 (by omega)
      ⟨⟨0,0,0,1,1,1⟩, -1, -1⟩ rfl
  · exact (claim1_leaf_encoding_roundtrip 5
      ⟨[⟨⟨0,0,0,1,1,1⟩, -1, -1⟩], [⟨⟨0,0,0,1,1,1⟩, 3, [7]⟩]⟩
      (fun _ => true) (fun _ => true) true true 1 (-1)).2.2 (by omega)
      ⟨⟨0,0,0,1,1,1⟩, 3, [7]⟩ rfl

/-! ### C8: order of the early-outs in `gatherSurfaces` -/

lemma pvsSeenScan_append (a b : List GatherEvent) (seen : List Nat) :
    pvsSeenScan (a ++ b) seen =
      (pvsSeenScan a seen && pvsSeenScan b (pvsCollect a seen)) := by
  induction a generalizing seen with
  | nil => simp [pvsSeenScan, pvsCollect]
  | cons e rest ih =>
    cases e with
    | leafPVS ℓ pass =>
      cases pass <;> simp [pvsSeenScan, pvsCollect, ih]
    | leafFrustum ℓ pass =>
      simp [pvsSeenScan, pvsCollect, ih, Bool.and_assoc]
    | nodeFrustum n pass => simp [pvsSeenScan, pvsCollect, ih]
    | addLeaf ℓ => simp [pvsSeenScan, pvsCollect, ih]
    | addSurface srf => simp [pvsSeenScan, pvsCollect, ih]

lemma pvsSeenScan_map_addSurface (l : List Nat) (seen : List Nat) :
    pvsSeenScan (l.map GatherEvent.addSurface) seen = true := by
  induction l with
  | nil => simp [pvsSeenScan]
  | cons s rest ih => simp [pvsSeenScan, ih]

lemma pvsSeenScan_gather (tree : BSPTreeData) (frustum : AABBQ → Bool)
    (pvs : Nat → Bool) (gs gl : Bool) :
    ∀ (fuel : Nat) (nodeid : Int) (seen : List Nat),
      pvsSeenScan ((gatherSurfaces tree frustum pvs gs gl fuel nodeid).2.2) seen = true := by
  intro fuel
  induction fuel with
  | zero => intro nodeid seen; simp [gatherSurfaces, pvsSeenScan]
  | succ n ih =>
    intro nodeid seen
    by_cases h : 0 ≤ nodeid
    · simp only [gatherSurfaces, if_pos h]
      cases tree.nodelist.get? nodeid.toNat with
      | none => simp [pvsSeenScan]
      | some node =>
        by_cases hf : frustum node.bbox
        · simp only [hf, if_pos]
          simp [pvsSeenScan, pvsSeenScan_append, ih]
        · simp only [hf, Bool.false_eq_true, if_neg]
          simp [pvsSeenScan]
    · simp only [gatherSurfaces, if_neg h]
      cases tree.leaflist.get? (decodeLeafIndex nodeid).toNat with
      | none => simp [pvsSeenScan]
      | some leaf =>
        by_cases hp : pvs leaf.cluster
        · by_cases hf : frustum leaf.bbox
          · simp only [hp, hf, if_pos]
            cases gl <;> cases gs <;>
              simp [pvsSeenScan, pvsSeenScan_append, pvsSeenScan_map_addSurface,
                    List.contains_cons]
          · simp only [hp, if_pos, hf, Bool.false_eq_true, if_neg]
            simp [pvsSeenScan]
        · simp only [hp, Bool.false_eq_true, if_neg]
          simp [pvsSeenScan]

/-- C8 counterexample: on a one-leaf tree whose leaf is visited (its
frustum test appears in the trace), the claimed frustum-before-PVS order
fails: the leaf's PVS bit is tested first. -/
theorem claim8_counterexample :
    frustumSeenScan
      ((gatherSurfaces ⟨[], [⟨⟨0,0,0,1,1,1⟩, 3, []⟩]⟩
          (fun _ => true) (fun _ => true) true true 1 (-1)).2.2) [] = false ∧
    GatherEvent.leafFrustum 0 true ∈
      (gatherSurfaces ⟨[], [⟨⟨0,0,0,1,1,1⟩, 3, []⟩]⟩
          (fun _ => true) (fun _ => true) true true 1 (-1)).2.2 := by
  constructor
  · rfl
  · simp [gatherSurfaces, decodeLeafIndex]

/-- C8 (amended): `gatherSurfaces` applies its early-outs in program
order: internal nodes are frustum-tested before their children are
visited and a failing node frustum test skips the whole subtree; for
leaves the PVS bit test on the leaf's cluster comes first — a failing bit
skips the leaf before any frustum work — and the leaf's frustum test runs
only after its PVS test has passed. -/
theorem claim8_gather_early_out_order (tree : BSPTreeData)
    (frustum : AABBQ → Bool) (pvs : Nat → Bool) (gs gl : Bool)
    (fuel : Nat) (nodeid : Int) :
    pvsSeenScan ((gatherSurfaces tree frustum pvs gs gl fuel nodeid).2.2) [] = true ∧
    (∀ node, 0 ≤ nodeid → tree.nodelist.get? nodeid.toNat = some node →
      frustum node.bbox = false →
      gatherSurfaces tree frustum pvs gs gl (fuel + 1) nodeid =
        ([], [], [GatherEvent.nodeFrustum nodeid false])) ∧
    (∀ leaf, nodeid < 0 →
      tree.leaflist.get? (decodeLeafIndex nodeid).toNat = some leaf →
      pvs leaf.cluster = false →
      gatherSurfaces tree frustum pvs gs gl (fuel + 1) nodeid =
        ([], [], [GatherEvent.leafPVS (decodeLeafIndex nodeid).toNat false])) := by
  refine ⟨pvsSeenScan_gather tree frustum pvs gs gl fuel nodeid [], ?_, ?_⟩
  · intro node h hget hf
    simp only [List.get?_eq_getElem?] at hget
    simp [gatherSurfaces, if_pos h, hget, hf]
  · intro leaf h hget hp
    have hn : ¬ (0 ≤ nodeid) := by omega
    simp only [List.get?_eq_getElem?] at hget
    simp [gatherSurfaces, if_neg hn, hget, hp]

/-- C8 witness: the amended order theorem applied to a concrete
two-node tree: a node whose frustum test fails is skipped whole, a leaf
whose PVS bit is clear is skipped, and the trace ordering check passes. -/
theorem claim8_witness :
    pvsSeenScan ((gatherSurfaces ⟨[⟨⟨0,0,0,1,1,1⟩, -1, -2⟩], [⟨⟨0,0,0,1,1,1⟩, 3, [4]⟩, ⟨⟨0,0,0,2,2,2⟩, 9, []⟩]⟩
        (fun _ => true) (fun c => c = 3) true true 2 0).2.2) [] = true ∧
    gatherSurfaces ⟨[⟨⟨0,0,0,1,1,1⟩, -1, -2⟩], [⟨⟨0,0,0,1,1,1⟩, 3, [4]⟩, ⟨⟨0,0,0,2,2,2⟩, 9, []⟩]⟩
        (fun _ => false) (fun c => c = 3) true true 1 0 =
      ([], [], [GatherEvent.nodeFrustum 0 false]) ∧
    gatherSurfaces ⟨[⟨⟨0,0,0,1,1,1⟩, -1, -2⟩], [⟨⟨0,0,0,1,1,1⟩, 3, [4]⟩, ⟨⟨0,0,0,2,2,2⟩, 9, []⟩]⟩
        (fun _ => true) (fun c => c = 3) true true 1 (-2) =
      ([], [], [GatherEvent.leafPVS 1 false]) := by
  refine ⟨(claim8_gather_early_out_order _ _ _ _ _ 2 0).1, ?_, ?_⟩
  · exact (claim8_gather_early_out_order
      ⟨[⟨⟨0,0,0,1,1,1⟩, -1, -2⟩], [⟨⟨0,0,0,1,1,1⟩, 3, [4]⟩, ⟨⟨0,0,0,2,2,2⟩, 9, []⟩]⟩
      (fun _ => false) (fun c => c = 3) true true 0 0).2.1
      ⟨⟨0,0,0,1,1,1⟩, -1, -2⟩ (by omega) rfl rfl
  · exact (claim8_gather_early_out_order
      ⟨[⟨⟨0,0,0,1,1,1⟩, -1, -2⟩], [⟨⟨0,0,0,1,1,1⟩, 3, [4]⟩, ⟨⟨0,0,0,2,2,2⟩, 9, []⟩]⟩
      (fun _ => true) (fun c => c = 3) true true 0 (-2)).2.2
      ⟨⟨0,0,0,2,2,2⟩, 9, []⟩ (by omega) rfl (by decide)

/-! ### C3, C9: `calcPVS` fallback and purity -/

lemma bitmapFill_getBit_true (bm : List Bool) (i : Nat) (h : i < bm.length) :
    bitmapGetBit (bitmapFill true bm) i = true := by
  induction bm generalizing i with
  | nil => simp at h
  | cons b rest ih =>
    cases i with
    | zero => rfl
    | succ j =>
      simp only [bitmapFill, List.map_cons, bitmapGetBit, List.getD] at *
      exact ih j (by simpa using h)

/-- C3: when no valid cluster exists for the camera position (the leaf
lookup fails, or the found leaf's cluster is `0xFFFF`), `calcPVS` returns
`false`, and the main-view caller then fills the whole PVS bitmap with
`true`: every bit of the bitmap used for rendering is set, so everything
is treated as visible. -/
theorem claim3_pvs_fallback_all_visible (pvsEnabled : Bool)
    (bsp : BSPFileModel) (pvs : List Bool) (cameraPos : Vec3)
    (h : bsp.findLeafForPoint cameraPos = none ∨
         ∃ leaf, bsp.findLeafForPoint cameraPos = some leaf ∧ leaf.cluster = 0xFFFF) :
    (calcPVS pvsEnabled bsp pvs cameraPos).1 = false ∧
    mainViewPVS pvsEnabled bsp pvs cameraPos = bitmapFill true pvs ∧
    ∀ i, i < pvs.length →
      bitmapGetBit (mainViewPVS pvsEnabled bsp pvs cameraPos) i = true := by
  have hres : calcPVS pvsEnabled bsp pvs cameraPos = (false, pvs) := by
    cases pvsEnabled with
    | false => rfl
    | true =>
      rcases h with hnone | ⟨leaf, hsome, hcl⟩
      · simp [calcPVS, hnone]
      · simp [calcPVS, hsome, hcl]
  refine ⟨by simp [hres], by simp [mainViewPVS, hres], ?_⟩
  intro i hi
  have : mainViewPVS pvsEnabled bsp pvs cameraPos = bitmapFill true pvs := by
    simp [mainViewPVS, hres]
  rw [this]
  exact bitmapFill_getBit_true pvs i hi

/-- C3 witness: a camera position resolving to cluster `0xFFFF` on a
three-bit bitmap: `calcPVS` returns `false` and the caller's bitmap ends
up fully set. -/
theorem claim3_witness :
    (calcPVS true ⟨fun _ => some ⟨0xFFFF⟩, fun _ => []⟩ [false, false, true] ⟨0, 0, 0⟩).1 = false ∧
    mainViewPVS true ⟨fun _ => some ⟨0xFFFF⟩, fun _ => []⟩ [false, false, true] ⟨0, 0, 0⟩ =
      bitmapFill true [false, false, true] ∧
    ∀ i, i < ([false, false, true] : List Bool).length →
      bitmapGetBit (mainViewPVS true ⟨fun _ => some ⟨0xFFFF⟩, fun _ => []⟩
        [false, false, true] ⟨0, 0, 0⟩) i = true :=
  claim3_pvs_fallback_all_visible true ⟨fun _ => some ⟨0xFFFF⟩, fun _ => []⟩
    [false, false, true] ⟨0, 0, 0⟩ (Or.inr ⟨⟨0xFFFF⟩, rfl, rfl⟩)

/-- C9: `calcPVS` mutates the bitmap passed to it only when it returns
`true`: whenever it returns `false` (PVS disabled, no leaf found, or an
invalid `0xFFFF` cluster), the returned bitmap is exactly the input
bitmap. -/
theorem claim9_calcPVS_no_mutation_on_false (pvsEnabled : Bool)
    (bsp : BSPFileModel) (pvs : List Bool) (cameraPos : Vec3)
    (h : (calcPVS pvsEnabled bsp pvs cameraPos).1 = false) :
    (calcPVS pvsEnabled bsp pvs cameraPos).2 = pvs := by
  cases pvsEnabled with
  | false => rfl
  | true =>
    cases hleaf : bsp.findLeafForPoint cameraPos with
    | none => simp [calcPVS, hleaf]
    | some leaf =>
      by_cases hcl : leaf.cluster = 0xFFFF
      · simp [calcPVS, hleaf, hcl]
      · exfalso
        simp [calcPVS, hleaf, hcl] at h

/-- C9 witness: with PVS enabled and a lookup that finds no leaf,
`calcPVS` returns `false` and leaves the concrete bitmap untouched. -/
theorem claim9_witness :
    (calcPVS true ⟨fun _ => none, fun _ => [true]⟩ [true, false] ⟨1, 2, 3⟩).2 = [true, false] :=
  claim9_calcPVS_no_mutation_on_false true ⟨fun _ => none, fun _ => [true]⟩
    [true, false] ⟨1, 2, 3⟩ rfl

/-! ### C2: output queue timing and exactly-once dispatch -/

lemma fireEntityOutputAction_fst (s : EntitySystemState) (e : QueuedOutputEvent) :
    (fireEntityOutputAction s e).1 = true ↔ e.triggerTime ≤ s.currentTime := by
  by_cases h : s.currentTime < e.triggerTime
  · simp [fireEntityOutputAction, h, not_le.2 h]
  · simp [fireEntityOutputAction, h, not_lt.1 h]

lemma processOutputQueue_eq (s : EntitySystemState) (q : List QueuedOutputEvent) :
    processOutputQueue s q =
      (q.filter (fun ev => decide (s.currentTime < ev.triggerTime)),
       (q.filter (fun ev => decide (ev.triggerTime ≤ s.currentTime))).flatMap
         (fun ev => (fireEntityOutputAction s ev).2)) := by
  induction q with
  | nil => rfl
  | cons e rest ih =>
    by_cases h : s.currentTime < e.triggerTime
    · have hfire : fireEntityOutputAction s e = (false, []) := by
        simp [fireEntityOutputAction, h]
      have h2 : ¬ e.triggerTime ≤ s.currentTime := not_le.2 h
      simp [processOutputQueue, hfire, ih, h, h2]
    · have h2 : e.triggerTime ≤ s.currentTime := not_lt.1 h
      have hfire : (fireEntityOutputAction s e).1 = true :=
        (fireEntityOutputAction_fst s e).2 h2
      simp [processOutputQueue, hfire, ih, h, h2]

lemma systemMovement_queue (s : EntitySystemState) (dt : ℚ) :
    ((systemMovement s dt).1).outputQueue =
      s.outputQueue.filter (fun ev => decide (s.currentTime < ev.triggerTime)) := by
  simp [systemMovement, processOutputQueue_eq]

lemma notin_queue_preserved (e : QueuedOutputEvent) (s : EntitySystemState) (dt : ℚ)
    (h : e ∉ s.outputQueue) : e ∉ ((systemMovement s dt).1).outputQueue := by
  rw [systemMovement_queue]
  intro hmem
  exact h (List.mem_of_mem_filter hmem)

lemma firedTickCount_of_notin (e : QueuedOutputEvent) :
    ∀ (dts : List ℚ) (s : EntitySystemState), e ∉ s.outputQueue →
      firedTickCount e (runTicks s dts) = 0 := by
  intro dts
  induction dts with
  | nil => intro s _; rfl
  | cons dt rest ih =>
    intro s h
    have hd : decide (e ∈ s.outputQueue) = false := by simpa using h
    simp only [runTicks, firedTickCount, List.filter, hd, Bool.false_and]
    exact ih (systemMovement s dt).1 (notin_queue_preserved e s dt h)

lemma firedTickCount_run (e : QueuedOutputEvent) :
    ∀ (dts : List ℚ) (s : EntitySystemState), e ∈ s.outputQueue →
      firedTickCount e (runTicks s dts) =
        if (runTicks s dts).any (fun st => decide (e.triggerTime ≤ st.currentTime))
        then 1 else 0 := by
  intro dts
  induction dts with
  | nil => intro s _; rfl
  | cons dt rest ih =>
    intro s he
    have hd : decide (e ∈ s.outputQueue) = true := by simpa using he
    by_cases htr : e.triggerTime ≤ s.currentTime
    · have hcond : (decide (e ∈ s.outputQueue) && decide (e.triggerTime ≤ s.currentTime)) = true := by
        simp [hd, htr]
      have hnotin : e ∉ ((systemMovement s dt).1).outputQueue := by
        rw [systemMovement_queue]
        intro hmem
        have hlt := List.of_mem_filter hmem
        simp at hlt
        exact absurd hlt (not_lt.2 htr)
      have hzero := firedTickCount_of_notin e rest (systemMovement s dt).1 hnotin
      simp only [runTicks, firedTickCount, List.filter, hcond] at *
      simp [hzero, firedTickCount, htr]
    · have hcond : (decide (e ∈ s.outputQueue) && decide (e.triggerTime ≤ s.currentTime)) = false := by
        simp [htr]
      have hin : e ∈ ((systemMovement s dt).1).outputQueue := by
        rw [systemMovement_queue]
        exact List.mem_filter.2 ⟨he, by simpa using htr⟩
      have hrec := ih (systemMovement s dt).1 hin
      simp only [runTicks, firedTickCount, List.filter, hcond, List.any_cons] at *
      simp [hrec, firedTickCount, htr]

/-- C2: an action fired through the output system is enqueued with
`triggerTime = currentTime + delay`; an event fires only once
`currentTime ≥ triggerTime` (dispatching to every entity whose target
name matches); the per-tick drain removes exactly the events whose
trigger time has arrived and keeps all others; and across any multi-tick
run a queued event is dispatched exactly once — in the first tick whose
time has reached its trigger time — and zero times if no tick reaches
it. -/
theorem claim2_output_queue_exactly_once
    (s : EntitySystemState) (a : EntityOutputAction) (v : String)
    (e : QueuedOutputEvent) (dts : List ℚ) (he : e ∈ s.outputQueue) :
    ((queueEntityOutputAction s a v).outputQueue =
      s.outputQueue ++
        [⟨s.currentTime + a.delay, a,
          if a.parameterOverride ≠ "" then a.parameterOverride else v⟩]) ∧
    ((fireEntityOutputAction s e).1 = true ↔ e.triggerTime ≤ s.currentTime) ∧
    ((fireEntityOutputAction s e).1 = true →
      (fireEntityOutputAction s e).2 = s.entities.filterMap (fun ent =>
        if entityMatchesTargetName ent e.action.targetName then
          some ⟨ent, e.action.inputName, e.value⟩
        else none)) ∧
    (processOutputQueue s s.outputQueue =
      (s.outputQueue.filter (fun ev => decide (s.currentTime < ev.triggerTime)),
       (s.outputQueue.filter (fun ev => decide (ev.triggerTime ≤ s.currentTime))).flatMap
         (fun ev => (fireEntityOutputAction s ev).2))) ∧
    (firedTickCount e (runTicks s dts) =
      if (runTicks s dts).any (fun st => decide (e.triggerTime ≤ st.currentTime))
      then 1 else 0) := by
  refine ⟨rfl, fireEntityOutputAction_fst s e, ?_, processOutputQueue_eq s s.outputQueue,
    firedTickCount_run e dts s he⟩
  intro hfired
  have h : ¬ s.currentTime < e.triggerTime :=
    not_lt.2 ((fireEntityOutputAction_fst s e).1 hfired)
  simp [fireEntityOutputAction, h]

/-- C2 witness: an action with delay 2 queued at `currentTime = 0` and
drained with three one-second ticks (tick-start times 0, 1, 2) is
dispatched exactly once; drained with one tick (time 0) it is not
dispatched at all. -/
theorem claim2_witness :
    firedTickCount ⟨2, ⟨"door", "open", "", 2, 1⟩, ""⟩
      (runTicks (queueEntityOutputAction ⟨[⟨some "door"⟩], 0, []⟩
        ⟨"door", "open", "", 2, 1⟩ "") [1, 1, 1]) = 1 ∧
    firedTickCount ⟨2, ⟨"door", "open", "", 2, 1⟩, ""⟩
      (runTicks (queueEntityOutputAction ⟨[⟨some "door"⟩], 0, []⟩
        ⟨"door", "open", "", 2, 1⟩ "") [1]) = 0 := by
  have he : (⟨2, ⟨"door", "open", "", 2, 1⟩, ""⟩ : QueuedOutputEvent) ∈
      (queueEntityOutputAction ⟨[⟨some "door"⟩], 0, []⟩
        ⟨"door", "open", "", 2, 1⟩ "").outputQueue := by
    norm_num [queueEntityOutputAction]
  constructor
  · exact ((claim2_output_queue_exactly_once _ ⟨"door", "open", "", 2, 1⟩ ""
      _ [1, 1, 1] he).2.2.2.2).trans (by
        norm_num [runTicks, systemMovement, processOutputQueue,
          fireEntityOutputAction, queueEntityOutputAction])
  · exact ((claim2_output_queue_exactly_once _ ⟨"door", "open", "", 2, 1⟩ ""
      _ [1] he).2.2.2.2).trans (by
        norm_num [runTicks, systemMovement, processOutputQueue,
          fireEntityOutputAction, queueEntityOutputAction])

/-! ### C10: `math_counter` clamp gating -/

lemma mathCounter_outValue_mem (s : MathCounterState) (v : ℚ) :
    CounterEvt.outValue ∈ (mathCounterUpdateValue s v).2 := by
  simp [mathCounterUpdateValue]

lemma clampMax_of_max0 (s : MathCounterState) (h : s.max = 0) :
    mathCounterClampMax s = (s, []) := by
  simp [mathCounterClampMax, h]

lemma clampMin_of_min0 (s : MathCounterState) (h : s.min = 0) :
    mathCounterClampMin s = (s, []) := by
  simp [mathCounterClampMin, h]

lemma clampMax_events (s : MathCounterState) :
    (mathCounterClampMax s).2 = [] ∨ (mathCounterClampMax s).2 = [CounterEvt.onHitMax] := by
  simp only [mathCounterClampMax]
  split_ifs <;> simp

lemma clampMin_events (s : MathCounterState) :
    (mathCounterClampMin s).2 = [] ∨ (mathCounterClampMin s).2 = [CounterEvt.onHitMin] := by
  simp only [mathCounterClampMin]
  split_ifs <;> simp

lemma clampMin_no_clamp (s : MathCounterState) (h : s.min = 0 ∨ s.min < s.value) :
    (mathCounterClampMin s).1.value = s.value ∧ (mathCounterClampMin s).2 = [] := by
  rcases h with h0 | hlt
  · rw [clampMin_of_min0 s h0]
    exact ⟨rfl, rfl⟩
  · simp only [mathCounterClampMin]
    split_ifs with h1 h2
    · exact absurd h2 (not_le.2 hlt)
    · exact absurd h2 (not_le.2 hlt)
    · exact ⟨rfl, rfl⟩
    · exact ⟨rfl, rfl⟩

lemma clampMax_clamp (s : MathCounterState) (h1 : s.max ≠ 0) (h2 : s.max ≤ s.value) :
    (mathCounterClampMax s).1.value = s.max ∧ (mathCounterClampMax s).1.min = s.min ∧
    (mathCounterClampMax s).1.minEdgeState = s.minEdgeState ∧
    (mathCounterClampMax s).2 = (if s.maxEdgeState then [] else [CounterEvt.onHitMax]) := by
  simp only [mathCounterClampMax, if_pos h1, ge_iff_le, if_pos h2]
  cases hms : s.maxEdgeState <;> simp [hms]

/-- C10: in `math_counter` the upper clamp and the edge-triggered
`onHitMax` are active only when `max ≠ 0`, and the lower clamp and
`onHitMin` only when `min ≠ 0`: with `max = 0` an `add` never clamps the
value (whenever the lower clamp does not apply) and never fires
`onHitMax` however large the value grows, while `outValue` fires on every
`add` and on every `subtract`; with `max ≠ 0` an `add` reaching `max`
clamps to `max` and fires `onHitMax` exactly when the max edge state was
clear. -/
theorem claim10_math_counter_gating (s : MathCounterState) (num : ℚ) :
    (s.max = 0 →
      CounterEvt.onHitMax ∉ (mathCounterInputAdd s num).2 ∧
      (s.min = 0 ∨ s.min < s.value + num →
        (mathCounterInputAdd s num).1.value = s.value + num)) ∧
    (s.min = 0 → CounterEvt.onHitMin ∉ (mathCounterInputAdd s num).2) ∧
    CounterEvt.outValue ∈ (mathCounterInputAdd s num).2 ∧
    CounterEvt.outValue ∈ (mathCounterInputSubtract s num).2 ∧
    (s.max ≠ 0 → s.max ≤ s.value + num → (s.min = 0 ∨ s.min < s.max) →
      (mathCounterInputAdd s num).1.value = s.max ∧
      (CounterEvt.onHitMax ∈ (mathCounterInputAdd s num).2 ↔ s.maxEdgeState = false)) := by
  refine ⟨?_, ?_, mathCounter_outValue_mem s (s.value + num),
    mathCounter_outValue_mem s (s.value - num), ?_⟩
  · intro hmax
    have hcm : mathCounterClampMax { s with value := s.value + num } =
        ({ s with value := s.value + num }, []) :=
      clampMax_of_max0 _ hmax
    constructor
    · simp only [mathCounterInputAdd, mathCounterUpdateValue, hcm]
      rcases clampMin_events ({ s with value := s.value + num }) with h | h <;> simp [h]
    · intro hnc
      have := clampMin_no_clamp ({ s with value := s.value + num }) (by simpa using hnc)
      simp only [mathCounterInputAdd, mathCounterUpdateValue, hcm]
      simpa using this.1
  · intro hmin
    simp only [mathCounterInputAdd, mathCounterUpdateValue]
    have hmin2 : (mathCounterClampMax { s with value := s.value + num }).1.min = 0 := by
      have : ∀ t : MathCounterState, (mathCounterClampMax t).1.min = t.min := by
        intro t
        simp only [mathCounterClampMax]
        split_ifs <;> rfl
      rw [this]
      exact hmin
    rw [clampMin_of_min0 _ hmin2]
    rcases clampMax_events ({ s with value := s.value + num }) with h | h <;> simp [h]
  · intro hmax hreach hmin
    have hclamp := clampMax_clamp ({ s with value := s.value + num })
      (by simpa using hmax) (by simpa using hreach)
    have hnomin := clampMin_no_clamp (mathCounterClampMax { s with value := s.value + num }).1
      (by rcases hmin with h0 | hlt
          · exact Or.inl (by rw [hclamp.2.1]; exact h0)
          · exact Or.inr (by rw [hclamp.2.1, hclamp.1]; exact hlt))
    constructor
    · simp only [mathCounterInputAdd, mathCounterUpdateValue]
      rw [hnomin.1, hclamp.1]
    · simp only [mathCounterInputAdd, mathCounterUpdateValue]
      rw [hnomin.2, hclamp.2.2.2]
      cases hms : s.maxEdgeState <;> simp [hms]

/-- C10 witness: with `min=0, max=10, value=8`, adding 5 clamps to 10 and
fires `onHitMax`; a second add of 1 (edge state now set) does not re-fire
it; and with `max=0` a huge add neither clamps nor fires `onHitMax`. -/
theorem claim10_witness :
    ((mathCounterInputAdd ⟨0, 10, 8, false, false⟩ 5).1.value = 10 ∧
     CounterEvt.onHitMax ∈ (mathCounterInputAdd ⟨0, 10, 8, false, false⟩ 5).2) ∧
    CounterEvt.onHitMax ∉ (mathCounterInputAdd ⟨0, 10, 10, false, true⟩ 1).2 ∧
    CounterEvt.onHitMax ∉ (mathCounterInputAdd ⟨0, 0, 8, false, false⟩ 1000000).2 ∧
    (mathCounterInputAdd ⟨0, 0, 8, false, false⟩ 1000000).1.value = 1000008 := by
  refine ⟨?_, ?_, ?_, ?_⟩
  · have h := (claim10_math_counter_gating ⟨0, 10, 8, false, false⟩ 5).2.2.2.2
      (by norm_num) (by norm_num) (Or.inl rfl)
    exact ⟨h.1, h.2.mpr rfl⟩
  · intro hm
    have h := (claim10_math_counter_gating ⟨0, 10, 10, false, true⟩ 1).2.2.2.2
      (by norm_num) (by norm_num) (Or.inl rfl)
    exact absurd (h.2.mp hm) (by decide)
  · exact ((claim10_math_counter_gating ⟨0, 0, 8, false, false⟩ 1000000).1 rfl).1
  · exact (((claim10_math_counter_gating ⟨0, 0, 8, false, false⟩ 1000000).1 rfl).2
      (Or.inl rfl)).trans (by norm_num)

/-! ### C7: `func_door` open behaviour -/

lemma ratSqrt_of_sq (L : ℚ) (h : 0 ≤ L) : ratSqrt (L * L) = L := by
  have hnum : (L * L).num = L.num * L.num := Rat.mul_self_num L
  have hden : (L * L).den = L.den * L.den := Rat.mul_self_den L
  have hLnum : 0 ≤ L.num := Rat.num_nonneg.2 h
  rw [ratSqrt, hnum, hden]
  have h1 : (L.num * L.num).toNat = L.num.toNat * L.num.toNat := by
    rcases Int.eq_ofNat_of_zero_le hLnum with ⟨n, hn⟩
    rw [hn]
    rfl
  rw [h1]
  have h2 : Nat.sqrt (L.num.toNat * L.num.toNat) = L.num.toNat := by
    rw [← pow_two]
    exact Nat.sqrt_eq' _
  have h3 : Nat.sqrt (L.den * L.den) = L.den := by
    rw [← pow_two]
    exact Nat.sqrt_eq' _
  rw [h2, h3]
  have h4 : ((L.num.toNat : ℚ)) = ((L.num : ℚ)) := by
    exact_mod_cast congrArg (fun z : ℤ => (z : ℚ)) (Int.toNat_of_nonneg hLnum)
  rw [h4]
  exact Rat.num_div_den L

lemma vecLen_axis_x (d : ℚ) (h : 0 ≤ d) : vecLen ⟨d, 0, 0⟩ = d := by
  have h1 : sqLen ⟨d, 0, 0⟩ = d * d := by simp [sqLen]
  rw [vecLen, h1, ratSqrt_of_sq d h]

/-- C7 (amended): on a `func_door`'s `open` input: if the toggle state is
already `Top` or `GoingToTop`, or the door is locked, the input is a
no-op (no state change, no output); otherwise the state transitions to
`GoingToTop`, linear movement toward the opened position starts at the
configured speed (`timeLeft = distance/speed`, velocity of norm `speed`
pointing at the target), `onOpen` fires immediately and is the only
output fired; during movement nothing fires before the target is
reached, and `onFullyOpen` fires exactly in the tick in which the
remaining time elapses, the origin then sitting at the opened position —
but the toggle state remains `GoingToTop` (the code never sets `Top`),
and once the remaining time is zero further movement is a no-op. -/
theorem claim7_door_open_behavior (s : FuncDoorState) :
    (s.toggleState = ToggleState.Top ∨ s.toggleState = ToggleState.GoingToTop →
      doorInputOpen s = (s, [])) ∧
    (s.locked = true → doorInputOpen s = (s, [])) ∧
    (∀ L, s.toggleState = ToggleState.Bottom ∨ s.toggleState = ToggleState.GoingToBottom →
      s.locked = false → L = vecLen (vsub s.positionOpened s.localOrigin) →
      0 < L → 0 < s.speed →
      (doorInputOpen s).1.toggleState = ToggleState.GoingToTop ∧
      (doorInputOpen s).1.timeLeftInSeconds = L / s.speed ∧
      (doorInputOpen s).1.velocityPerSecond =
        vscale (s.speed / L) (vsub s.positionOpened s.localOrigin) ∧
      (doorInputOpen s).2 = [DoorEvt.onOpen]) ∧
    (∀ dt, s.toggleState = ToggleState.GoingToTop → 0 < s.timeLeftInSeconds →
      (dt < s.timeLeftInSeconds →
        (doorMovement s dt).2 = [] ∧
        (doorMovement s dt).1.timeLeftInSeconds = s.timeLeftInSeconds - dt) ∧
      (s.timeLeftInSeconds ≤ dt →
        (doorMovement s dt).2 = [DoorEvt.onFullyOpen] ∧
        (doorMovement s dt).1.localOrigin = s.positionTarget ∧
        (doorMovement s dt).1.toggleState = ToggleState.GoingToTop)) ∧
    (s.timeLeftInSeconds ≤ 0 → ∀ dt, doorMovement s dt = (s, [])) := by
  refine ⟨?_, ?_, ?_, ?_, ?_⟩
  · intro h
    rw [doorInputOpen, if_pos h]
  · intro h
    rw [doorInputOpen]
    by_cases h1 : s.toggleState = ToggleState.Top ∨ s.toggleState = ToggleState.GoingToTop
    · rw [if_pos h1]
    · rw [if_neg h1, if_pos h]
  · intro L hstate hlock hL hLpos hspd
    have hcond : ¬ (s.toggleState = ToggleState.Top ∨ s.toggleState = ToggleState.GoingToTop) := by
      rcases hstate with h1 | h1 <;> rw [h1] <;> simp
    rw [doorInputOpen, if_neg hcond, if_neg (by simp [hlock])]
    simp only [doorGoToTop, doorMoveToTargetPos]
    rw [← hL]
    have hpos : 0 < L / s.speed := div_pos hLpos hspd
    rw [if_neg (not_le.2 hpos)]
    refine ⟨rfl, rfl, ?_, rfl⟩
    simp only [vscale]
    rw [one_div_div]
  · intro dt hstate htl
    constructor
    · intro hlt
      rw [doorMovement, if_pos htl, if_neg (by simp; linarith)]
      exact ⟨rfl, rfl⟩
    · intro hge
      rw [doorMovement, if_pos htl, if_pos (by simp; linarith)]
      simp [doorMoveDone, hstate]
  · intro h dt
    rw [doorMovement, if_neg (not_lt.2 h)]

/-- C7 counterexample: a closed door at the origin with opened position
`(100,0,0)` and speed 100 receives `open` and then one movement tick of
1 s: it reaches the opened position and fires `onFullyOpen`, but the
toggle state is still `GoingToTop`, not `Top` as the claim states. -/
theorem claim7_counterexample :
    DoorEvt.onFullyOpen ∈
      (doorMovement (doorInputOpen ⟨⟨0,0,0⟩, ⟨100,0,0⟩, ⟨0,0,0⟩, 100, false,
        ToggleState.Bottom, 0, ⟨0,0,0⟩, ⟨0,0,0⟩⟩).1 1).2 ∧
    (doorMovement (doorInputOpen ⟨⟨0,0,0⟩, ⟨100,0,0⟩, ⟨0,0,0⟩, 100, false,
        ToggleState.Bottom, 0, ⟨0,0,0⟩, ⟨0,0,0⟩⟩).1 1).1.localOrigin = ⟨100,0,0⟩ ∧
    (doorMovement (doorInputOpen ⟨⟨0,0,0⟩, ⟨100,0,0⟩, ⟨0,0,0⟩, 100, false,
        ToggleState.Bottom, 0, ⟨0,0,0⟩, ⟨0,0,0⟩⟩).1 1).1.toggleState ≠ ToggleState.Top := by
  have hv : vsub ⟨100,0,0⟩ ⟨0,0,0⟩ = (⟨100,0,0⟩ : Vec3) := by
    simp [vsub]
  have hlen : vecLen (⟨100,0,0⟩ : Vec3) = 100 := vecLen_axis_x 100 (by norm_num)
  have hopen : doorInputOpen ⟨⟨0,0,0⟩, ⟨100,0,0⟩, ⟨0,0,0⟩, 100, false,
      ToggleState.Bottom, 0, ⟨0,0,0⟩, ⟨0,0,0⟩⟩ =
      (⟨⟨0,0,0⟩, ⟨100,0,0⟩, ⟨0,0,0⟩, 100, false, ToggleState.GoingToTop, 1,
        ⟨100,0,0⟩, ⟨100,0,0⟩⟩, [DoorEvt.onOpen]) := by
    rw [doorInputOpen, if_neg (by simp), if_neg (by simp)]
    simp only [doorGoToTop, doorMoveToTargetPos, hv, hlen]
    norm_num [vscale]
  rw [hopen]
  have hmove : doorMovement ⟨⟨0,0,0⟩, ⟨100,0,0⟩, ⟨0,0,0⟩, 100, false,
      ToggleState.GoingToTop, 1, ⟨100,0,0⟩, ⟨100,0,0⟩⟩ 1 =
      (⟨⟨100,0,0⟩, ⟨100,0,0⟩, ⟨0,0,0⟩, 100, false, ToggleState.GoingToTop, 0,
        ⟨100,0,0⟩, vzero⟩, [DoorEvt.onFullyOpen]) := by
    rw [doorMovement, if_pos (by norm_num), if_pos (by norm_num)]
    norm_num [doorMoveDone, vadd, vscale]
  rw [hmove]
  refine ⟨by simp, rfl, by simp⟩

/-- C7 witness: the amended theorem applied to concrete doors: a door
already at `Top` ignores `open`; a locked door ignores `open`; a closed
door at the origin with opened position `(100,0,0)` and speed 100 moves
to `GoingToTop` with one second of travel time, firing exactly
`onOpen`; the in-flight door fires `onFullyOpen` in the tick that
consumes the remaining second; and a door with no remaining travel time
does not move. -/
theorem claim7_witness :
    doorInputOpen ⟨⟨0,0,0⟩, ⟨100,0,0⟩, ⟨0,0,0⟩, 100, false, ToggleState.Top, 0,
      ⟨0,0,0⟩, ⟨0,0,0⟩⟩ =
      (⟨⟨0,0,0⟩, ⟨100,0,0⟩, ⟨0,0,0⟩, 100, false, ToggleState.Top, 0,
        ⟨0,0,0⟩, ⟨0,0,0⟩⟩, []) ∧
    doorInputOpen ⟨⟨0,0,0⟩, ⟨100,0,0⟩, ⟨0,0,0⟩, 100, true, ToggleState.Bottom, 0,
      ⟨0,0,0⟩, ⟨0,0,0⟩⟩ =
      (⟨⟨0,0,0⟩, ⟨100,0,0⟩, ⟨0,0,0⟩, 100, true, ToggleState.Bottom, 0,
        ⟨0,0,0⟩, ⟨0,0,0⟩⟩, []) ∧
    ((doorInputOpen ⟨⟨0,0,0⟩, ⟨100,0,0⟩, ⟨0,0,0⟩, 100, false, ToggleState.Bottom, 0,
        ⟨0,0,0⟩, ⟨0,0,0⟩⟩).1.toggleState = ToggleState.GoingToTop ∧
     (doorInputOpen ⟨⟨0,0,0⟩, ⟨100,0,0⟩, ⟨0,0,0⟩, 100, false, ToggleState.Bottom, 0,
        ⟨0,0,0⟩, ⟨0,0,0⟩⟩).1.timeLeftInSeconds = 1 ∧
     (doorInputOpen ⟨⟨0,0,0⟩, ⟨100,0,0⟩, ⟨0,0,0⟩, 100, false, ToggleState.Bottom, 0,
        ⟨0,0,0⟩, ⟨0,0,0⟩⟩).2 = [DoorEvt.onOpen]) ∧
    ((doorMovement ⟨⟨0,0,0⟩, ⟨100,0,0⟩, ⟨0,0,0⟩, 100, false, ToggleState.GoingToTop, 1,
        ⟨100,0,0⟩, ⟨100,0,0⟩⟩ 1).2 = [DoorEvt.onFullyOpen]) ∧
    doorMovement ⟨⟨100,0,0⟩, ⟨100,0,0⟩, ⟨0,0,0⟩, 100, false, ToggleState.GoingToTop, 0,
        ⟨100,0,0⟩, ⟨0,0,0⟩⟩ 1 =
      (⟨⟨100,0,0⟩, ⟨100,0,0⟩, ⟨0,0,0⟩, 100, false, ToggleState.GoingToTop, 0,
        ⟨100,0,0⟩, ⟨0,0,0⟩⟩, []) := by
  have hL : (100 : ℚ) = vecLen (vsub (⟨100,0,0⟩ : Vec3) ⟨0,0,0⟩) := by
    have hv : vsub ⟨100,0,0⟩ ⟨0,0,0⟩ = (⟨100,0,0⟩ : Vec3) := by simp [vsub]
    rw [hv, vecLen_axis_x 100 (by norm_num)]
  refine ⟨?_, ?_, ?_, ?_, ?_⟩
  · exact (claim7_door_open_behavior _).1 (Or.inl rfl)
  · exact (claim7_door_open_behavior _).2.1 rfl
  · have h := (claim7_door_open_behavior
      ⟨⟨0,0,0⟩, ⟨100,0,0⟩, ⟨0,0,0⟩, 100, false, ToggleState.Bottom, 0,
        ⟨0,0,0⟩, ⟨0,0,0⟩⟩).2.2.1 100 (Or.inl rfl) rfl hL (by norm_num) (by norm_num)
    exact ⟨h.1, h.2.1.trans (by norm_num), h.2.2.2⟩
  · exact (((claim7_door_open_behavior _).2.2.2.1 1 rfl (by norm_num)).2 (by norm_num)).1
  · exact (claim7_door_open_behavior _).2.2.2.2 (by norm_num) 1

/-! ### C4: resolved weight-entry matrices -/

lemma foldl_add_eq_sum (l : List WeightedBone) (f : WeightedBone → Mat) (a : Mat) :
    l.foldl (fun dst wb => dst + f wb) a = a + (l.map f).sum := by
  induction l generalizing a with
  | nil => simp
  | cons x xs ih => simp [ih, add_assoc]

lemma sum_map_smul_const (l : List WeightedBone) (M : Mat) :
    (l.map (fun wb => wb.weight • M)).sum =
      ((l.map (fun wb => wb.weight)).sum) • M := by
  induction l with
  | nil => simp
  | cons x xs ih => simp [ih, add_smul]

/-- C4: a normal (direct) weight entry copies the referenced joint's
world matrix and that joint's visibility classification; a weighted
entry's matrix is `Σ weight_i • (jointWorld_i * inverseBindPose_i)` and
its visibility is unconditionally `FULLY_INSIDE` (weighted entries are
never frustum-culled); when every referenced inverse-bind pose is the
identity the resolved matrix is `Σ weight_i • jointWorld_i`, which for
weights summing to 1 is the weighted average of the referenced joint
matrices — in particular if all referenced joints carry the same matrix
`M`, the resolved matrix is `M` itself. -/
theorem claim4_weight_entry_resolution (J : Nat → Mat)
    (V : Nat → IntersectionState) (envs : Nat → Envelope) (B : Nat → Mat)
    (j : DRW1Joint) (M : Mat) :
    (j.kind = DRW1JointKind.NormalJoint →
      resolveDrw1Entry J V envs B j = (J j.jointIndex, V j.jointIndex)) ∧
    (j.kind = DRW1JointKind.WeightedJoint →
      (resolveDrw1Entry J V envs B j).1 =
        ((envs j.envelopeIndex).weightedBones.map
          (fun wb => wb.weight • (J wb.index * B wb.index))).sum ∧
      (resolveDrw1Entry J V envs B j).2 = IntersectionState.FULLY_INSIDE) ∧
    (j.kind = DRW1JointKind.WeightedJoint →
      (∀ wb ∈ (envs j.envelopeIndex).weightedBones, B wb.index = 1) →
      (resolveDrw1Entry J V envs B j).1 =
        ((envs j.envelopeIndex).weightedBones.map
          (fun wb => wb.weight • J wb.index)).sum) ∧
    (j.kind = DRW1JointKind.WeightedJoint →
      (∀ wb ∈ (envs j.envelopeIndex).weightedBones, B wb.index = 1) →
      (∀ wb ∈ (envs j.envelopeIndex).weightedBones, J wb.index = M) →
      ((envs j.envelopeIndex).weightedBones.map
        (fun wb => wb.weight)).sum = 1 →
      (resolveDrw1Entry J V envs B j).1 = M) := by
  have hw : j.kind = DRW1JointKind.WeightedJoint →
      (resolveDrw1Entry J V envs B j).1 =
        ((envs j.envelopeIndex).weightedBones.map
          (fun wb => wb.weight • (J wb.index * B wb.index))).sum := by
    intro hk
    simp only [resolveDrw1Entry, hk]
    rw [foldl_add_eq_sum]
    simp
  refine ⟨?_, fun hk => ⟨hw hk, by simp [resolveDrw1Entry, hk]⟩, ?_, ?_⟩
  · intro hk
    simp [resolveDrw1Entry, hk]
  · intro hk hB
    rw [hw hk]
    congr 1
    exact List.map_congr_left (fun wb hwb => by rw [hB wb hwb, mul_one])
  · intro hk hB hJ hsum
    rw [hw hk]
    have h1 : ((envs j.envelopeIndex).weightedBones.map
        (fun wb => wb.weight • (J wb.index * B wb.index))).sum =
        ((envs j.envelopeIndex).weightedBones.map
          (fun wb => wb.weight • M)).sum := by
      congr 1
      exact List.map_congr_left
        (fun wb hwb => by rw [hB wb hwb, mul_one, hJ wb hwb])
    rw [h1, sum_map_smul_const, hsum, one_smul]

/-- C4 witness: a direct entry copies matrix and visibility; a weighted
entry over two bones with weights `1/4` and `3/4`, identity bind poses
and both joints at `3 • 1` resolves to `3 • 1` (the weighted average)
and is marked `FULLY_INSIDE` even though every referenced joint is
classified `FULLY_OUTSIDE`. -/
theorem claim4_witness :
    resolveDrw1Entry (fun _ => 1) (fun _ => IntersectionState.PARTIAL_INTERSECT)
      (fun _ => ⟨[]⟩) (fun _ => 1) ⟨DRW1JointKind.NormalJoint, 5, 0⟩ =
      (1, IntersectionState.PARTIAL_INTERSECT) ∧
    (resolveDrw1Entry (fun _ => (3 : ℚ) • 1) (fun _ => IntersectionState.FULLY_OUTSIDE)
      (fun _ => ⟨[⟨1/4, 0⟩, ⟨3/4, 1⟩]⟩) (fun _ => 1)
      ⟨DRW1JointKind.WeightedJoint, 0, 0⟩).1 = (3 : ℚ) • 1 ∧
    (resolveDrw1Entry (fun _ => (3 : ℚ) • 1) (fun _ => IntersectionState.FULLY_OUTSIDE)
      (fun _ => ⟨[⟨1/4, 0⟩, ⟨3/4, 1⟩]⟩) (fun _ => 1)
      ⟨DRW1JointKind.WeightedJoint, 0, 0⟩).2 = IntersectionState.FULLY_INSIDE := by
  refine ⟨?_, ?_, ?_⟩
  · exact (claim4_weight_entry_resolution (fun _ => 1)
      (fun _ => IntersectionState.PARTIAL_INTERSECT) (fun _ => ⟨[]⟩) (fun _ => 1)
      ⟨DRW1JointKind.NormalJoint, 5, 0⟩ 1).1 rfl
  · exact (claim4_weight_entry_resolution (fun _ => (3 : ℚ) • 1)
      (fun _ => IntersectionState.FULLY_OUTSIDE) (fun _ => ⟨[⟨1/4, 0⟩, ⟨3/4, 1⟩]⟩)
      (fun _ => 1) ⟨DRW1JointKind.WeightedJoint, 0, 0⟩ ((3 : ℚ) • 1)).2.2.2 rfl
      (by intro wb _; rfl) (by intro wb _; rfl) (by norm_num)
  · exact ((claim4_weight_entry_resolution (fun _ => (3 : ℚ) • 1)
      (fun _ => IntersectionState.FULLY_OUTSIDE) (fun _ => ⟨[⟨1/4, 0⟩, ⟨3/4, 1⟩]⟩)
      (fun _ => 1) ⟨DRW1JointKind.WeightedJoint, 0, 0⟩ ((3 : ℚ) • 1)).2.1 rfl).2

/-! ### C6: the `0xFFFF` sentinel leaves uniform slots untouched -/

lemma updateMatrixTable_slot_preserved (mv : Mat) (mA : Nat → Mat)
    (mV : Nat → IntersectionState) :
    ∀ (table : List Nat) (i0 : Nat) (st : SlotState) (nu : Bool) (k : Nat),
      (table.getD (k - i0) matrixSentinel = matrixSentinel ∨ k < i0) →
      (updateMatrixTable mv mA mV table i0 st nu).1.u_PosMtx k = st.u_PosMtx k ∧
      (updateMatrixTable mv mA mV table i0 st nu).1.posMtxVisibility k =
        st.posMtxVisibility k := by
  intro table
  induction table with
  | nil => intro i0 st nu k _; exact ⟨rfl, rfl⟩
  | cons e rest ih =>
    intro i0 st nu k hk
    by_cases hke : k = i0
    · subst hke
      have he : e = matrixSentinel := by
        rcases hk with h | h
        · simpa using h
        · omega
      rw [updateMatrixTable, if_pos he]
      exact ih (k + 1) st nu k (Or.inr (by omega))
    · have hrest : rest.getD (k - (i0 + 1)) matrixSentinel = matrixSentinel ∨ k < i0 + 1 := by
        rcases hk with h | h
        · by_cases hlt : k < i0
          · exact Or.inr (by omega)
          · left
            have hpos : k - i0 = (k - (i0 + 1)) + 1 := by omega
            rw [hpos] at h
            simpa using h
        · exact Or.inr (by omega)
      rw [updateMatrixTable]
      by_cases he : e = matrixSentinel
      · rw [if_pos he]
        exact ih (i0 + 1) st nu k hrest
      · rw [if_neg he]
        have := ih (i0 + 1)
          ⟨Function.update st.posMtxVisibility i0 (mV e),
           Function.update st.u_PosMtx i0 (mv * mA e)⟩ true k hrest
        rw [this.1, this.2]
        constructor
        · exact Function.update_noteq hke _ _
        · exact Function.update_noteq hke _ _

lemma updateMatrixTable_slot_written (mv : Mat) (mA : Nat → Mat)
    (mV : Nat → IntersectionState) :
    ∀ (table : List Nat) (i0 : Nat) (st : SlotState) (nu : Bool) (k : Nat),
      i0 ≤ k → k - i0 < table.length →
      table.getD (k - i0) matrixSentinel ≠ matrixSentinel →
      (updateMatrixTable mv mA mV table i0 st nu).1.u_PosMtx k =
        mv * mA (table.getD (k - i0) matrixSentinel) ∧
      (updateMatrixTable mv mA mV table i0 st nu).1.posMtxVisibility k =
        mV (table.getD (k - i0) matrixSentinel) := by
  intro table
  induction table with
  | nil => intro i0 st nu k _ hlen _; simp at hlen
  | cons e rest ih =>
    intro i0 st nu k hle hlen hne
    by_cases hke : k = i0
    · subst hke
      have he0 : (e :: rest).getD (k - k) matrixSentinel = e := by simp
      rw [he0] at hne ⊢
      rw [updateMatrixTable, if_neg hne]
      have hpres := updateMatrixTable_slot_preserved mv mA mV rest (k + 1)
        ⟨Function.update st.posMtxVisibility k (mV e),
         Function.update st.u_PosMtx k (mv * mA e)⟩ true k (Or.inr (by omega))
      rw [hpres.1, hpres.2]
      constructor
      · exact Function.update_same _ _ _
      · exact Function.update_same _ _ _
    · have hgt : i0 < k := by omega
      have hstep : k - i0 = (k - (i0 + 1)) + 1 := by omega
      have hg : (e :: rest).getD (k - i0) matrixSentinel =
          rest.getD (k - (i0 + 1)) matrixSentinel := by
        rw [hstep]; simp
      rw [hg] at hne ⊢
      rw [updateMatrixTable]
      by_cases he : e = matrixSentinel
      · rw [if_pos he]
        exact ih (i0 + 1) st nu k (by omega) (by simp at hlen; omega) hne
      · rw [if_neg he]
        exact ih (i0 + 1) _ true k (by omega) (by simp at hlen; omega) hne

lemma drawPackets_slot_preserved (mv : Mat) (mA : Nat → Mat)
    (mV : Nat → IntersectionState) :
    ∀ (packets : List (List Nat)) (p : Nat) (st : SlotState) (nu : Bool) (k : Nat),
      (∀ table ∈ packets, table.getD k matrixSentinel = matrixSentinel) →
      (drawPackets mv mA mV packets p st nu).1.u_PosMtx k = st.u_PosMtx k ∧
      (drawPackets mv mA mV packets p st nu).1.posMtxVisibility k =
        st.posMtxVisibility k := by
  intro packets
  induction packets with
  | nil => intro p st nu k _; exact ⟨rfl, rfl⟩
  | cons table rest ih =>
    intro p st nu k hsent
    have hhead := updateMatrixTable_slot_preserved mv mA mV table 0 st nu k
      (Or.inl (by simpa using hsent table (by simp)))
    rw [drawPackets]
    by_cases hcull : allSlotsOutside (updateMatrixTable mv mA mV table 0 st nu).1 = true
    · rw [if_pos hcull]
      exact hhead
    · rw [if_neg hcull]
      have hrest := ih (p + 1) (updateMatrixTable mv mA mV table 0 st nu).1 false k
        (fun t ht => hsent t (by simp [ht]))
      exact ⟨hrest.1.trans hhead.1, hrest.2.trans hhead.2⟩

/-- C6: a matrix-table entry equal to the all-bits-set sentinel `0xFFFF`
leaves the corresponding per-packet uniform slot (and its cached
visibility) unmodified — also for slots beyond the table's length — while
a non-sentinel entry `m` at position `k` overwrites slot `k` with
`modelView * matrixArray[m]` and visibility `matrixVisibility[m]`; and
across a whole subsequent draw call whose packets all hold the sentinel
at position `k`, slot `k` keeps the value the earlier draw left in it. -/
theorem claim6_sentinel_preserves_slot (mv mv2 : Mat) (mA mA2 : Nat → Mat)
    (mV mV2 : Nat → IntersectionState) (table : List Nat)
    (packets2 : List (List Nat)) (st : SlotState) (nu : Bool) (k : Nat) :
    (table.getD k matrixSentinel = matrixSentinel →
      (updateMatrixTable mv mA mV table 0 st nu).1.u_PosMtx k = st.u_PosMtx k ∧
      (updateMatrixTable mv mA mV table 0 st nu).1.posMtxVisibility k =
        st.posMtxVisibility k) ∧
    (k < table.length → table.getD k matrixSentinel ≠ matrixSentinel →
      (updateMatrixTable mv mA mV table 0 st nu).1.u_PosMtx k =
        mv * mA (table.getD k matrixSentinel) ∧
      (updateMatrixTable mv mA mV table 0 st nu).1.posMtxVisibility k =
        mV (table.getD k matrixSentinel)) ∧
    ((∀ t ∈ packets2, t.getD k matrixSentinel = matrixSentinel) →
      (commandShapeDraw mv2 mA2 mV2 packets2 (commandShapeDraw mv mA mV [table] st).1).1.u_PosMtx k =
        (commandShapeDraw mv mA mV [table] st).1.u_PosMtx k) := by
  refine ⟨?_, ?_, ?_⟩
  · intro hs
    exact updateMatrixTable_slot_preserved mv mA mV table 0 st nu k
      (Or.inl (by simpa using hs))
  · intro hlen hne
    have := updateMatrixTable_slot_written mv mA mV table 0 st nu k
      (by omega) (by simpa using hlen) (by simpa using hne)
    simpa using this
  · intro hsent
    exact (drawPackets_slot_preserved mv2 mA2 mV2 packets2 0
      (commandShapeDraw mv mA mV [table] st).1 false k hsent).1

/-- C6 witness: the regression scenario — a first draw writes slot 0
through table `[0]`; a second draw whose packet table is
`[0xFFFF, 1]` leaves slot 0 with exactly the value the first draw wrote
(`modelView * matrixArray[0]`), and an out-of-range slot 7 is also
untouched. -/
theorem claim6_witness :
    ((updateMatrixTable 1 (fun _ => (2 : ℚ) • 1) (fun _ => IntersectionState.FULLY_INSIDE)
        [0] 0 ⟨fun _ => IntersectionState.FULLY_INSIDE, fun _ => 1⟩ false).1.u_PosMtx 0 =
      1 * (2 : ℚ) • 1) ∧
    ((updateMatrixTable 1 (fun _ => (2 : ℚ) • 1) (fun _ => IntersectionState.FULLY_INSIDE)
        [0] 0 ⟨fun _ => IntersectionState.FULLY_INSIDE, fun _ => 1⟩ false).1.u_PosMtx 7 = 1) ∧
    ((commandShapeDraw ((3 : ℚ) • 1) (fun _ => (5 : ℚ) • 1)
        (fun _ => IntersectionState.FULLY_INSIDE) [[matrixSentinel, 1]]
        (commandShapeDraw 1 (fun _ => (2 : ℚ) • 1) (fun _ => IntersectionState.FULLY_INSIDE)
          [[0]] ⟨fun _ => IntersectionState.FULLY_INSIDE, fun _ => 1⟩).1).1.u_PosMtx 0 =
      (commandShapeDraw 1 (fun _ => (2 : ℚ) • 1) (fun _ => IntersectionState.FULLY_INSIDE)
        [[0]] ⟨fun _ => IntersectionState.FULLY_INSIDE, fun _ => 1⟩).1.u_PosMtx 0) := by
  refine ⟨?_, ?_, ?_⟩
  · exact ((claim6_sentinel_preserves_slot 1 1 (fun _ => (2 : ℚ) • 1) (fun _ => 1)
      (fun _ => IntersectionState.FULLY_INSIDE) (fun _ => IntersectionState.FULLY_INSIDE)
      [0] [] ⟨fun _ => IntersectionState.FULLY_INSIDE, fun _ => 1⟩ false 0).2.1
      (by norm_num) (by norm_num [matrixSentinel])).1
  · exact ((claim6_sentinel_preserves_slot 1 1 (fun _ => (2 : ℚ) • 1) (fun _ => 1)
      (fun _ => IntersectionState.FULLY_INSIDE) (fun _ => IntersectionState.FULLY_INSIDE)
      [0] [] ⟨fun _ => IntersectionState.FULLY_INSIDE, fun _ => 1⟩ false 7).1
      (by norm_num [matrixSentinel])).1
  · exact (claim6_sentinel_preserves_slot 1 ((3 : ℚ) • 1) (fun _ => (2 : ℚ) • 1)
      (fun _ => (5 : ℚ) • 1) (fun _ => IntersectionState.FULLY_INSIDE)
      (fun _ => IntersectionState.FULLY_INSIDE) [0] [[matrixSentinel, 1]]
      ⟨fun _ => IntersectionState.FULLY_INSIDE, fun _ => 1⟩ false 0).2.2
      (by intro t ht; simp at ht; subst ht; rfl)

/-! ### C5: packet culling ends the whole draw call -/

lemma drawPackets_drawn_contiguous (mv : Mat) (mA : Nat → Mat)
    (mV : Nat → IntersectionState) :
    ∀ (packets : List (List Nat)) (p : Nat) (st : SlotState) (nu : Bool),
      (drawPackets mv mA mV packets p st nu).2.2 =
        List.range' p ((drawPackets mv mA mV packets p st nu).2.2).length := by
  intro packets
  induction packets with
  | nil => intro p st nu; rfl
  | cons table rest ih =>
    intro p st nu
    rw [drawPackets]
    by_cases hcull : allSlotsOutside (updateMatrixTable mv mA mV table 0 st nu).1 = true
    · rw [if_pos hcull]
      rfl
    · rw [if_neg hcull]
      simp only [List.length_cons]
      rw [List.range'_succ]
      exact congrArg (p :: ·) (ih (p + 1) (updateMatrixTable mv mA mV table 0 st nu).1 false)

/-- C5 (amended): in the shape draw loop a packet is culled exactly when
every one of the 10 visibility slots is `Outside` after its matrix-table
update, and any non-`Outside` slot forces that packet's draw; but a
culled packet executes `return`, ending the whole draw call: no later
packet of the shape is drawn either (the drawn packet indices always
form a contiguous run from the first packet), and the culled packet's
table writes are still applied to the slot state. -/
theorem claim5_cull_aborts_draw (mv : Mat) (mA : Nat → Mat)
    (mV : Nat → IntersectionState) (packets : List (List Nat)) (p : Nat)
    (st : SlotState) (nu : Bool) :
    ((drawPackets mv mA mV packets p st nu).2.2 =
      List.range' p ((drawPackets mv mA mV packets p st nu).2.2).length) ∧
    (∀ table rest, packets = table :: rest →
      allSlotsOutside (updateMatrixTable mv mA mV table 0 st nu).1 = true →
      (drawPackets mv mA mV packets p st nu).2.2 = [] ∧
      (drawPackets mv mA mV packets p st nu).1 =
        (updateMatrixTable mv mA mV table 0 st nu).1) ∧
    (∀ table rest, packets = table :: rest →
      allSlotsOutside (updateMatrixTable mv mA mV table 0 st nu).1 = false →
      p ∈ (drawPackets mv mA mV packets p st nu).2.2) := by
  refine ⟨drawPackets_drawn_contiguous mv mA mV packets p st nu, ?_, ?_⟩
  · intro table rest hp hcull
    subst hp
    rw [drawPackets, if_pos hcull]
    exact ⟨rfl, rfl⟩
  · intro table rest hp hcull
    subst hp
    rw [drawPackets, if_neg (by simp [hcull])]
    simp

/-- C5 counterexample: two packets; packet 0's table marks all 10 slots
`Outside` (so it is culled) and packet 1's table would mark slot 0
visible.  The source's draw loop draws nothing — the `return` on the
culled packet 0 also skips packet 1 — while the per-packet-independent
reading of the claim (`drawPacketsIndependent`) draws packet 1. -/
theorem claim5_counterexample :
    (commandShapeDraw 1 (fun _ => 1)
      (fun m => if m = 0 then IntersectionState.FULLY_OUTSIDE else IntersectionState.FULLY_INSIDE)
      [[0,0,0,0,0,0,0,0,0,0], [1]]
      ⟨fun _ => IntersectionState.FULLY_INSIDE, fun _ => 1⟩).2 = [] ∧
    (drawPacketsIndependent 1 (fun _ => 1)
      (fun m => if m = 0 then IntersectionState.FULLY_OUTSIDE else IntersectionState.FULLY_INSIDE)
      [[0,0,0,0,0,0,0,0,0,0], [1]] 0
      ⟨fun _ => IntersectionState.FULLY_INSIDE, fun _ => 1⟩ false).2.2 = [1] := by
  constructor
  · rfl
  · rfl

/-- C5 witness: the amended theorem at the counterexample input: the
culled first packet leaves the drawn list empty (and its table writes
applied), and on a shape whose first packet keeps a visible slot the
first packet is drawn. -/
theorem claim5_witness :
    (drawPackets 1 (fun _ => 1)
      (fun m => if m = 0 then IntersectionState.FULLY_OUTSIDE else IntersectionState.FULLY_INSIDE)
      [[0,0,0,0,0,0,0,0,0,0], [1]] 0
      ⟨fun _ => IntersectionState.FULLY_INSIDE, fun _ => 1⟩ false).2.2 = [] ∧
    0 ∈ (drawPackets 1 (fun _ => 1)
      (fun m => if m = 0 then IntersectionState.FULLY_OUTSIDE else IntersectionState.FULLY_INSIDE)
      [[1], [0,0,0,0,0,0,0,0,0,0]] 0
      ⟨fun _ => IntersectionState.FULLY_INSIDE, fun _ => 1⟩ false).2.2 := by
  constructor
  · exact ((claim5_cull_aborts_draw 1 (fun _ => 1)
      (fun m => if m = 0 then IntersectionState.FULLY_OUTSIDE else IntersectionState.FULLY_INSIDE)
      [[0,0,0,0,0,0,0,0,0,0], [1]] 0
      ⟨fun _ => IntersectionState.FULLY_INSIDE, fun _ => 1⟩ false).2.1
      [0,0,0,0,0,0,0,0,0,0] [[1]] rfl (by rfl)).1
  · exact (claim5_cull_aborts_draw 1 (fun _ => 1)
      (fun m => if m = 0 then IntersectionState.FULLY_OUTSIDE else IntersectionState.FULLY_INSIDE)
      [[1], [0,0,0,0,0,0,0,0,0,0]] 0
      ⟨fun _ => IntersectionState.FULLY_INSIDE, fun _ => 1⟩ false).2.2
      [1] [[0,0,0,0,0,0,0,0,0,0]] rfl (by rfl)

end NoclipSpec
